import Mathlib

/-!
Verification development for the subcontractor research system
(`research.py`, `main.py`, `models.py`).

The Python code is shallowly embedded: dictionaries become structures with
`Option` fields (a key that is absent and a key whose value is `None` are
conflated, which is faithful to every `is not None` / truthiness test the
code performs), CPython float arithmetic on the small decimal values handled
here is modelled exactly (`int(...)` truncation toward zero of an exact
quotient is integer T-division), and network / RNG / LLM effects are
supplied as explicit oracle arguments.  Regular-expression scanning (`re.findall`) is embedded by an
executable backtracking matcher specialised to the pattern constructs the
source uses (all quantifiers in the source are over single-character
classes).
-/

namespace SubRes

/-- Python truthiness of an optional string (`None` and `""` are falsy). -/
def pyTruthyO (o : Option String) : Bool :=
  match o with
  | none => false
  | some s => !s.isEmpty

/-- Python truthiness of an optional integer (`None` and `0` are falsy). -/
def pyTruthyInt (o : Option Int) : Bool :=
  match o with
  | none => false
  | some n => n != 0

/-- Python `int(x)` on a real value: truncation toward zero. -/
def pyInt (q : ℚ) : Int :=
  if q < 0 then ⌈q⌉ else ⌊q⌋

/-- A profile record as the dictionaries flowing through `research.py`
(fields of `models.Subcontractor` plus the transient `evidence_page`).
`none` models an absent key or a `None` value. -/
structure Profile where
  name : Option String := none
  website : Option String := none
  email : Option String := none
  phone_number : Option String := none
  city : Option String := none
  state : Option String := none
  bond_amount : Option Int := none
  lic_number : Option String := none
  lic_active : Option Bool := none
  tx_projects_past_5yrs : Option Int := none
  score : Option Int := none
  evidence_url : Option String := none
  evidence_text : Option String := none
  evidence_page : Option String := none
  last_checked : Option String := none
deriving Repr, DecidableEq

/-- Geographic factor of `score_and_rank` (research.py lines 589-594). -/
def geoFactor (p : Profile) (target_city target_state : String) : Int :=
  if p.city = some target_city ∧ p.state = some target_state then 25
  else if p.state = some target_state then 15
  else 0

/-- License factor of `score_and_rank` (research.py lines 596-602). -/
def licFactor (p : Profile) : Int :=
  match p.lic_active with
  | some true => 25
  | some false => 0
  | none => 10

/-- Bonding-capacity factor of `score_and_rank` (research.py lines 604-613).
`none` as result models the `ZeroDivisionError` raised by
`bond_amount / min_bond` when `min_bond == 0` and `bond_amount < 0`.
`int(25 * (bond_amount / min_bond))` truncates the exact quotient toward
zero, which is integer T-division (`Int.tdiv`); see `tdiv_eq_pyInt`. -/
def bondFactor : Option Int → Int → Option Int
  | none, _ => some 0
  | some b, min_bond =>
    if min_bond ≤ b then some 25
    else if min_bond = 0 then none
    else some (Int.tdiv (25 * b) min_bond)

/-- Project-experience factor of `score_and_rank` (research.py lines 615-620). -/
def projFactor (p : Profile) : Int :=
  if 5 ≤ p.tx_projects_past_5yrs.getD 0 then 25
  else 5 * p.tx_projects_past_5yrs.getD 0

/-- The composite score of one profile (the body of the loop in
`score_and_rank`); `none` models the uncaught `ZeroDivisionError`. -/
def scoreProfile (p : Profile) (target_city target_state : String) (min_bond : Int) :
    Option Int :=
  (bondFactor p.bond_amount min_bond).map fun bf =>
    geoFactor p target_city target_state + licFactor p + bf + projFactor p

/-- The scoring loop of `score_and_rank`: profiles missing a truthy `name` or
`website` are skipped, every other profile is annotated with its score. -/
def annotateScores (target_city target_state : String) (min_bond : Int) :
    List Profile → Option (List Profile)
  | [] => some []
  | p :: rest =>
    if pyTruthyO p.name && pyTruthyO p.website then
      match scoreProfile p target_city target_state min_bond with
      | none => none
      | some s =>
        match annotateScores target_city target_state min_bond rest with
        | none => none
        | some tail => some ({p with score := some s} :: tail)
    else annotateScores target_city target_state min_bond rest

/-- `ResearchEngine.score_and_rank` (research.py lines 577-632): score each
eligible profile, keep those scoring at least 40, sort by score descending
(Python's stable sort with `reverse=True`, modelled by a stable insertion
sort with the flipped comparison).  `none` models the `ZeroDivisionError` case. -/
def score_and_rank (profiles : List Profile) (target_city target_state : String)
    (min_bond : Int) : Option (List Profile) :=
  (annotateScores target_city target_state min_bond profiles).map fun scored =>
    List.insertionSort (fun a b => b.score.getD 0 ≤ a.score.getD 0)
      (scored.filter fun q => decide (40 ≤ q.score.getD 0))

/-! Regular-expression scanning.

The patterns of `research.py` use only: literal characters, single-character
classes, alternation, optional groups, `+`/`*`/bounded repetition over
single-character classes, capturing and non-capturing groups, and the word
boundary `\b`.  `Rx` covers exactly these; `mstep` enumerates the match
continuations in CPython's backtracking priority order (alternation
left-first, quantifiers greedy), so the head of the enumeration is the match
`re` would produce, and `findall` replays `re.findall`: leftmost matches,
scanning on from the end of each (non-empty) match. -/

/-- Word character for `\b` (ASCII approximation of Python `\w`). -/
def isWordChar (c : Char) : Bool := c.isAlphanum || c = '_'

/-- ASCII whitespace for `\s`. -/
def isSpaceChar (c : Char) : Bool :=
  c = ' ' || c = '\t' || c = '\n' || c = '\r' || c = '\x0b' || c = '\x0c'

/-- Pattern syntax (see module comment). -/
inductive Rx where
  | eps : Rx
  | ch : (Char → Bool) → Rx
  | seq : Rx → Rx → Rx
  | alt : Rx → Rx → Rx
  | opt : Rx → Rx
  | plus : (Char → Bool) → Rx
  | starCh : (Char → Bool) → Rx
  | grp : Nat → Rx → Rx
  | wordB : Rx

/-- Matcher state: remaining input, previously consumed character (for `\b`),
captured groups in completion order. -/
structure MState where
  rest : List Char
  prev : Option Char
  caps : List (Nat × List Char)
deriving Repr, DecidableEq

/-- All ways to consume a non-empty run of `p`-characters, longest first
(greedy order), returning the last consumed character and the rest. -/
def runSplits (p : Char → Bool) : List Char → List (Option Char × List Char)
  | [] => []
  | c :: cs => if p c then runSplits p cs ++ [(some c, cs)] else []

/-- One matching step: all continuations of matching `r` from state `s`, in
backtracking priority order (the head is the match CPython commits to). -/
def mstep : Rx → MState → List MState
  | .eps, s => [s]
  | .ch p, s =>
    match s.rest with
    | [] => []
    | c :: cs => if p c then [⟨cs, some c, s.caps⟩] else []
  | .seq a b, s => (mstep a s).flatMap (mstep b)
  | .alt a b, s => mstep a s ++ mstep b s
  | .opt a, s => mstep a s ++ [s]
  | .plus p, s => (runSplits p s.rest).map fun pr => ⟨pr.2, pr.1, s.caps⟩
  | .starCh p, s => ((runSplits p s.rest).map fun pr => ⟨pr.2, pr.1, s.caps⟩) ++ [s]
  | .grp n a, s =>
    (mstep a s).map fun t =>
      ⟨t.rest, t.prev, t.caps ++ [(n, s.rest.take (s.rest.length - t.rest.length))]⟩
  | .wordB, s =>
    let before := match s.prev with | none => false | some c => isWordChar c
    let after := match s.rest with | [] => false | c :: _ => isWordChar c
    if before ≠ after then [s] else []

/-- One `re.findall` result: captured groups and the whole matched text. -/
structure FRes where
  caps : List (Nat × List Char)
  whole : List Char
deriving Repr, DecidableEq

/-- Scan for successive leftmost matches (`re.findall`); the fuel is the
input length plus one, enough since every step consumes at least one
character or is the final position. -/
def findallAux (r : Rx) : Nat → List Char → Option Char → List FRes
  | 0, _, _ => []
  | fuel + 1, input, prev =>
    match (mstep r ⟨input, prev, []⟩).head? with
    | some t =>
      let clen := input.length - t.rest.length
      let res : FRes := ⟨t.caps, input.take clen⟩
      if clen = 0 then
        match input with
        | [] => [res]
        | c :: cs => res :: findallAux r fuel cs (some c)
      else res :: findallAux r fuel t.rest t.prev
    | none =>
      match input with
      | [] => []
      | c :: cs => findallAux r fuel cs (some c)

/-- `re.findall(pattern, text)`. -/
def findall (r : Rx) (text : List Char) : List FRes :=
  findallAux r (text.length + 1) text none

/-- Python's `group(n)` as reported by `findall`: the last completed capture
of group `n`, or the empty string for an unmatched group. -/
def capStr (res : FRes) (n : Nat) : List Char :=
  (((res.caps.filter fun kv => kv.1 = n).getLast?).map Prod.snd).getD []

/-- Sequence a list of patterns. -/
def rxSeq (l : List Rx) : Rx := l.foldr .seq .eps

/-- Case-insensitive (when `icase`) single-character test. -/
def chEq (icase : Bool) (c : Char) : Char → Bool :=
  if icase then fun d => d.toLower = c.toLower else fun d => d = c

/-- A literal string as a pattern. -/
def litS (icase : Bool) (s : String) : Rx :=
  rxSeq (s.data.map fun c => .ch (chEq icase c))

/-- Left-nested alternation of literal strings (Python `a|b|c`, tried
left to right). -/
def altsRx (icase : Bool) : List String → Rx
  | [] => .eps
  | [s] => litS icase s
  | s :: rest => .alt (litS icase s) (altsRx icase rest)

/-- Email local-part class `[A-Za-z0-9._%+-]`. -/
def emailLocalChar (c : Char) : Bool :=
  c.isUpper || c.isLower || c.isDigit || c = '.' || c = '_' || c = '%' || c = '+' || c = '-'

/-- Email domain class `[A-Za-z0-9.-]`. -/
def emailDomChar (c : Char) : Bool :=
  c.isUpper || c.isLower || c.isDigit || c = '.' || c = '-'

/-- Email TLD class `[A-Z|a-z]` (the source's class literally includes `|`). -/
def emailTldChar (c : Char) : Bool :=
  c.isUpper || c = '|' || c.isLower

/-- research.py line 344: `\b[A-Za-z0-9._%+-]+@[A-Za-z0-9.-]+\.[A-Z|a-z]{2,}\b`. -/
def emailRx : Rx :=
  rxSeq [.wordB, .plus emailLocalChar, .ch (chEq false '@'), .plus emailDomChar,
    .ch (chEq false '.'), .ch emailTldChar, .ch emailTldChar, .starCh emailTldChar, .wordB]

/-- Phone separator class `[-.\s]`. -/
def phoneSepChar (c : Char) : Bool := c = '-' || c = '.' || isSpaceChar c

/-- research.py line 345: `\(?\d{3}\)?[-.\s]?\d{3}[-.\s]?\d{4}`. -/
def phoneRx : Rx :=
  rxSeq [.opt (.ch (chEq false '(')),
    .ch Char.isDigit, .ch Char.isDigit, .ch Char.isDigit,
    .opt (.ch (chEq false ')')), .opt (.ch phoneSepChar),
    .ch Char.isDigit, .ch Char.isDigit, .ch Char.isDigit,
    .opt (.ch phoneSepChar),
    .ch Char.isDigit, .ch Char.isDigit, .ch Char.isDigit, .ch Char.isDigit]

/-- research.py line 375: `(?:address|location)(?:[:\s]+)([^,]+),\s+([A-Z]{2})\s+\d{5}`
(no `re.IGNORECASE` flag). -/
def addrRx1 : Rx :=
  rxSeq [.alt (litS false "address") (litS false "location"),
    .plus (fun c => c = ':' || isSpaceChar c),
    .grp 1 (.plus fun c => c != ','), .ch (chEq false ','), .plus isSpaceChar,
    .grp 2 (rxSeq [.ch Char.isUpper, .ch Char.isUpper]), .plus isSpaceChar,
    .ch Char.isDigit, .ch Char.isDigit, .ch Char.isDigit, .ch Char.isDigit, .ch Char.isDigit]

/-- research.py line 376: `([A-Za-z\s]+),\s+([A-Z]{2})\s+\d{5}`. -/
def addrRx2 : Rx :=
  rxSeq [.grp 1 (.plus fun c => c.isUpper || c.isLower || isSpaceChar c),
    .ch (chEq false ','), .plus isSpaceChar,
    .grp 2 (rxSeq [.ch Char.isUpper, .ch Char.isUpper]), .plus isSpaceChar,
    .ch Char.isDigit, .ch Char.isDigit, .ch Char.isDigit, .ch Char.isDigit, .ch Char.isDigit]

/-- Shared head of both bond patterns (research.py lines 349-350), matched
with `re.IGNORECASE`: `bond(?:ed|ing)(?:\s+(?:up\s+)?to)?\s+\$(\d+(?:[,.]\d+)?)`. -/
def bondCore : Rx :=
  rxSeq [litS true "bond", .alt (litS true "ed") (litS true "ing"),
    .opt (rxSeq [.plus isSpaceChar, .opt (rxSeq [litS true "up", .plus isSpaceChar]),
      litS true "to"]),
    .plus isSpaceChar, .ch (chEq false '$'),
    .grp 1 (rxSeq [.plus Char.isDigit,
      .opt (rxSeq [.ch (fun c => c = ',' || c = '.'), .plus Char.isDigit])])]

/-- research.py line 349: the bond pattern with the `\s+(?:million|m)` tail. -/
def bondRx1 : Rx := rxSeq [bondCore, .plus isSpaceChar, .alt (litS true "million") (litS true "m")]

/-- research.py line 350: the plain bond pattern. -/
def bondRx2 : Rx := bondCore

/-- research.py line 559: `Texas|TX|Austin|Dallas|Houston|San Antonio`
with `re.IGNORECASE`. -/
def locRx : Rx := altsRx true ["Texas", "TX", "Austin", "Dallas", "Houston", "San Antonio"]

/-! String helpers mirroring the Python string methods the source uses. -/

/-- Python `str.lower()` (ASCII approximation). -/
def lowerL (s : List Char) : List Char := s.map Char.toLower

/-- Python `needle in hay` on strings: contiguous-substring test. -/
def containsSub : List Char → List Char → Bool
  | _, [] => true
  | [], _ :: _ => false
  | c :: cs, n :: ns => (n :: ns).isPrefixOf (c :: cs) || containsSub cs (n :: ns)

/-- Python `hay.find(needle)` scanning from offset `i`. -/
def findSubAux (needle : List Char) : List Char → Nat → Option Nat
  | l, i =>
    if needle.isPrefixOf l then some i
    else
      match l with
      | [] => none
      | _ :: cs => findSubAux needle cs (i + 1)

/-- Python `str.strip()` (ASCII whitespace). -/
def pyStrip (s : List Char) : List Char :=
  ((s.dropWhile isSpaceChar).reverse.dropWhile isSpaceChar).reverse

/-- Python `str.replace(",", "")`. -/
def stripCommas (s : List Char) : List Char := s.filter fun c => c != ','

/-- Digits to a natural number. -/
def digitsToNat (s : List Char) : Nat :=
  s.foldl (fun n c => n * 10 + (c.toNat - '0'.toNat)) 0

/-- Mantissa of the decimal strings the bond group can match (digits with at
most one `.`): `decMant s / 10 ^ decScale s` is the exact value of
Python's `float(s)`. -/
def decMant (s : List Char) : Nat :=
  digitsToNat (s.filter fun c => c != '.')

/-- Number of fractional digits of a matched decimal string. -/
def decScale (s : List Char) : Nat :=
  ((s.dropWhile fun c => c != '.').drop 1).length

/-! The extraction pass (`ResearchEngine._extract_data_from_pages`,
research.py lines 330-449).  A page is a pair of its path and its text
(the `BeautifulSoup.get_text` step is not modelled: pages are supplied as
already-extracted text). -/

/-- The `extracted_data` dictionary of `_extract_data_from_pages`. -/
structure ExtractedData where
  email : Option String := none
  phone_number : Option String := none
  city : Option String := none
  state : Option String := none
  bond_amount : Option Int := none
  evidence_text : String := ""
  evidence_page : String := ""
deriving Repr, DecidableEq

/-- The page-scan accumulator: `extracted_data` plus the `best_evidence` /
`best_evidence_page` locals of `_extract_data_from_pages`. -/
structure ScanState where
  data : ExtractedData
  best_evidence : List Char := []
  best_evidence_page : String := ""
deriving Repr, DecidableEq

/-- Email block (research.py lines 361-365): first match, only when no email
was found yet (Python truthiness guard). -/
def scanEmail (d : ExtractedData) (text : List Char) : ExtractedData :=
  if !pyTruthyO d.email then
    match findall emailRx text with
    | r :: _ => {d with email := some r.whole.asString}
    | [] => d
  else d

/-- Phone block (research.py lines 367-371). -/
def scanPhone (d : ExtractedData) (text : List Char) : ExtractedData :=
  if !pyTruthyO d.phone_number then
    match findall phoneRx text with
    | r :: _ => {d with phone_number := some r.whole.asString}
    | [] => d
  else d

/-- One iteration of the address-pattern loop (research.py lines 379-383):
a pattern's first match sets city and state together when the pair is not
yet (truthily) set. -/
def addrStep (text : List Char) (d : ExtractedData) (rx : Rx) : ExtractedData :=
  match findall rx text with
  | r :: _ =>
    if !(pyTruthyO d.city && pyTruthyO d.state) then
      let cityVal := (pyStrip (capStr r 1)).asString
      let stateVal := (capStr r 2).asString
      {d with city := some cityVal, state := some stateVal}
    else d
  | [] => d

/-- City/state block (research.py lines 373-383): both address patterns are
tried in order. -/
def scanAddress (d : ExtractedData) (text : List Char) : ExtractedData :=
  [addrRx1, addrRx2].foldl (addrStep text) d

/-- The group-1 string of the first bond-pattern match on a page: the two
patterns are tried in order and the scan stops at the first match
(research.py lines 386-390 and the `break` at line 417). -/
def bondFirstMatch (text : List Char) : Option (List Char) :=
  match findall bondRx1 text with
  | r :: _ => some (capStr r 1)
  | [] =>
    match findall bondRx2 text with
    | r :: _ => some (capStr r 1)
    | [] => none

/-- Bond block (research.py lines 385-419): note that, unlike the other
fields, the assignment to `bond_amount` is not guarded by a
previously-found-value test, so every page with a match overwrites it.
The matched string (commas stripped) denotes the exact float value
`mant / 10^scale`; the optional multiplication by 1,000,000 and the final
`int(...)` of the non-negative exact value amount to a natural-number
quotient. -/
def scanBond (st : ScanState) (path : String) (text : List Char) : ScanState :=
  match bondFirstMatch text with
  | none => st
  | some bond_str =>
    let s := stripCommas bond_str
    let low := lowerL text
    let mult : Nat := if containsSub low "million".data || containsSub low "m".data then
        1000000 else 1
    let bv : Int := Int.ofNat (decMant s * mult / 10 ^ decScale s)
    let d := {st.data with bond_amount := some bv}
    match findSubAux (lowerL bond_str) low 0 with
    | none => {st with data := d}
    | some pos =>
      let start := pos - 100
      let stop := min text.length (pos + 100)
      let evidence := pyStrip ((text.drop start).take (stop - start))
      if st.best_evidence.isEmpty || st.best_evidence.length < evidence.length then
        {data := d, best_evidence := evidence, best_evidence_page := path}
      else {st with data := d}

/-- One iteration of the page loop of `_extract_data_from_pages`
(research.py lines 357-419). -/
def processPage (st : ScanState) (page : String × String) : ScanState :=
  let text := page.2.data
  let d := scanEmail st.data text
  let d := scanPhone d text
  let d := scanAddress d text
  scanBond {st with data := d} page.1 text

/-- The JSON object of the structured-extraction fallback
(`_extract_with_llm`); the prompt asks for all six keys, null when unfound,
so each key is modelled as present with an optional value.  A failed call or
unparseable response is modelled as `none` at the call site. -/
structure LLMOut where
  city : Option String := none
  state : Option String := none
  bond_amount : Option Int := none
  email : Option String := none
  phone_number : Option String := none
  evidence_text : Option String := none
deriving Repr, DecidableEq

/-- `ResearchEngine._extract_data_from_pages` (research.py lines 330-449):
fold the deterministic scan over the pages in order, then, if any of city /
state / bond_amount is still falsy, fill the (truthily) missing fields from
the fallback response, and finally store the best evidence. -/
def extract_data_from_pages (pages : List (String × String)) (llm : Option LLMOut) :
    ExtractedData :=
  let st := pages.foldl processPage ⟨{}, [], ""⟩
  let d := st.data
  let filled :=
    if !(pyTruthyO d.city && pyTruthyO d.state && pyTruthyInt d.bond_amount) then
      match llm with
      | none => (d, st.best_evidence)
      | some l =>
        let d := if !pyTruthyO d.city then {d with city := l.city} else d
        let d := if !pyTruthyO d.state then {d with state := l.state} else d
        let d := if !pyTruthyInt d.bond_amount then {d with bond_amount := l.bond_amount} else d
        let d := if !pyTruthyO d.email then {d with email := l.email} else d
        let d := if !pyTruthyO d.phone_number then {d with phone_number := l.phone_number} else d
        let ev := if pyTruthyO l.evidence_text && st.best_evidence.isEmpty then
            (l.evidence_text.getD "").data else st.best_evidence
        (d, ev)
    else (d, st.best_evidence)
  {filled.1 with evidence_text := filled.2.asString, evidence_page := st.best_evidence_page}

/-! Candidate records and the per-candidate profile extraction. -/

/-- A raw candidate record from a source adapter (research.py discovery
stage); `none` models an absent dictionary key. -/
structure Candidate where
  name : Option String := none
  website : Option String := none
  source : Option String := none
  lic_number : Option String := none
  lic_active : Option Bool := none
deriving Repr, DecidableEq

/-- URL scheme normalization (research.py lines 262-263). -/
def addScheme (w : String) : String :=
  if ("http://".data).isPrefixOf w.data || ("https://".data).isPrefixOf w.data then w
  else "https://" ++ w

/-- Python `str.rstrip("/")`. -/
def pyRstripSlash (s : String) : String :=
  ⟨(s.data.reverse.dropWhile fun c => c = '/').reverse⟩

/-- The populated-field count of `_extract_single_profile` (research.py lines
316-318): the number of keys of the profile dictionary whose value is not
`None`, excluding `website`, `last_checked`, `evidence_url` and
`evidence_text`.  At that point the dictionary holds exactly the keys
counted here (in particular `name` and `evidence_page` are always present
with string values, hence never `None`). -/
def populatedFieldCount (p : Profile) : Nat :=
  (if p.name.isSome then 1 else 0) + (if p.lic_number.isSome then 1 else 0) +
  (if p.lic_active.isSome then 1 else 0) + (if p.email.isSome then 1 else 0) +
  (if p.phone_number.isSome then 1 else 0) + (if p.city.isSome then 1 else 0) +
  (if p.state.isSome then 1 else 0) + (if p.bond_amount.isSome then 1 else 0) +
  (if p.evidence_page.isSome then 1 else 0)

/-- `ResearchEngine._extract_single_profile` (research.py lines 255-328).
The network fetches are supplied as `pages` (the successfully fetched
path/text pairs, in visit order) and the fallback call as `llm`; `now` is
the `datetime.now().isoformat()` timestamp.  Returns `none` when the
candidate has no truthy website, when no page was fetched, or when fewer
than 4 counted fields are populated. -/
def extract_single_profile (candidate : Candidate) (pages : List (String × String))
    (llm : Option LLMOut) (now : String) : Option Profile :=
  if !pyTruthyO candidate.website then none
  else
    let website := addScheme (candidate.website.getD "")
    if pages.isEmpty then none
    else
      let ex := extract_data_from_pages pages llm
      let p : Profile :=
        { name := some (candidate.name.getD ""), website := some website,
          last_checked := some now,
          lic_number := candidate.lic_number, lic_active := candidate.lic_active,
          email := ex.email, phone_number := ex.phone_number,
          city := ex.city, state := ex.state, bond_amount := ex.bond_amount,
          evidence_text := some ex.evidence_text, evidence_page := some ex.evidence_page,
          evidence_url := some (if ex.evidence_page ≠ "" then
            pyRstripSlash website ++ ex.evidence_page else website) }
      if 4 ≤ populatedFieldCount p then some p else none

/-- The candidate loop of `ResearchEngine.extract_profiles` (research.py
lines 228-253): candidates are processed in order (batching only bounds
concurrency), a candidate whose extraction raises or returns `None`
contributes nothing.  Oracles are indexed by candidate position. -/
def extractLoop (pages : Nat → List (String × String)) (llm : Nat → Option LLMOut)
    (now : String) : Nat → List Candidate → List Profile
  | _, [] => []
  | i, c :: rest =>
    match extract_single_profile c (pages i) (llm i) now with
    | some p => p :: extractLoop pages llm now (i + 1) rest
    | none => extractLoop pages llm now (i + 1) rest

/-- `ResearchEngine.extract_profiles` (research.py lines 228-253). -/
def extract_profiles (candidates : List Candidate) (pages : Nat → List (String × String))
    (llm : Nat → Option LLMOut) (now : String) : List Profile :=
  extractLoop pages llm now 0 candidates

/-! License verification (`ResearchEngine.verify_licenses`, research.py
lines 502-519). -/

/-- Python `str.upper()` (ASCII approximation). -/
def pyUpper (s : String) : String := ⟨s.data.map Char.toUpper⟩

/-- The per-profile loop of `verify_licenses` for the supported jurisdiction:
a missing or falsy license number is replaced by a synthetic `TX`-prefixed
one, and the active flag is always assigned.  `nums` models the
`random.randint(10000000, 99999999)` draws and `coins` the
`random.random() < 0.8` draws, indexed by profile position. -/
def verifyLoop (nums : Nat → Nat) (coins : Nat → Bool) : Nat → List Profile → List Profile
  | _, [] => []
  | i, p :: rest =>
    let p1 := if !pyTruthyO p.lic_number then
        {p with lic_number := some ("TX" ++ toString (nums i))} else p
    {p1 with lic_active := some (coins i)} :: verifyLoop nums coins (i + 1) rest

/-- `ResearchEngine.verify_licenses` (research.py lines 502-519): a
pass-through unless `state.upper() == "TX"`. -/
def verify_licenses (profiles : List Profile) (state : String) (nums : Nat → Nat)
    (coins : Nat → Bool) : List Profile :=
  if pyUpper state ≠ "TX" then profiles
  else verifyLoop nums coins 0 profiles

/-! Project-history estimation (`ResearchEngine.parse_project_history`,
research.py lines 521-575). -/

/-- research.py line 559: the number of location-token mentions. -/
def txMentions (text : String) : Nat := (findall locRx text.data).length

/-- research.py lines 551-552 and 560: the total number of mentions of the
years `current_year - 5 .. current_year`, each counted by its own
`re.findall`. -/
def yearMentions (text : String) (currentYear : Nat) : Nat :=
  ((List.range 6).map fun k =>
    (findall (litS false (toString (currentYear - 5 + k))) text.data).length).sum

/-- research.py line 563: the total number of keyword mentions
(case-insensitive; keywords are modelled as literal patterns). -/
def kwMentions (text : String) (keywords : List String) : Nat :=
  (keywords.map fun kw => (findall (litS true kw) text.data).length).sum

/-- The count computed from a fetched project page (research.py lines
549-571): `min` of the location and year tallies, boosted by half the
keyword mentions and capped at 10 only when both the tally minimum and the
keyword mentions are positive; 0 when no page text was fetched. -/
def project_count_from_text (text : String) (currentYear : Nat)
    (keywords : List String) : Nat :=
  if text = "" then 0
  else
    let tx_mentions := txMentions text
    let year_mentions := yearMentions text currentYear
    let keyword_mentions := kwMentions text keywords
    let c := min tx_mentions year_mentions
    if 0 < keyword_mentions ∧ 0 < c then min (c + keyword_mentions / 2) 10 else c

/-- The profile loop of `parse_project_history`: a profile without a truthy
website is skipped (its field is left untouched); otherwise the count for the
fetched project page (`projHtml`, indexed by profile position; `""` when no
project page was fetched) is assigned. -/
def historyLoop (keywords : List String) (projHtml : Nat → String) (currentYear : Nat) :
    Nat → List Profile → List Profile
  | _, [] => []
  | i, p :: rest =>
    let cnt := project_count_from_text (projHtml i) currentYear keywords
    let p1 := if pyTruthyO p.website then
        {p with tx_projects_past_5yrs := some (Int.ofNat cnt)} else p
    p1 :: historyLoop keywords projHtml currentYear (i + 1) rest

/-- `ResearchEngine.parse_project_history` (research.py lines 521-575); the
`state` argument is accepted but, as in the source, never used. -/
def parse_project_history (profiles : List Profile) (state : String)
    (keywords : List String) (projHtml : Nat → String) (currentYear : Nat) :
    List Profile :=
  historyLoop keywords projHtml currentYear 0 profiles

/-! Discovery (`ResearchEngine.discover_candidates`, research.py lines
69-110) and the adapters relevant to the claims. -/

/-- `urlparse(url).netloc` for the absolute http(s) URLs `_extract_domain`
produces: the text after the scheme up to the first `/`, `?` or `#`. -/
def netlocOf (url : List Char) : List Char :=
  if ("https://".data).isPrefixOf url then
    (url.drop 8).takeWhile fun c => c != '/' && c != '?' && c != '#'
  else if ("http://".data).isPrefixOf url then
    (url.drop 7).takeWhile fun c => c != '/' && c != '?' && c != '#'
  else []

/-- `ResearchEngine._extract_domain` (research.py lines 207-226). -/
def extract_domain (url : String) : String :=
  if url = "" then ""
  else
    let u := url.data
    let u2 := if ("http://".data).isPrefixOf u || ("https://".data).isPrefixOf u then u
      else "https://".data ++ u
    let domain := netlocOf u2
    if ("www.".data).isPrefixOf domain then ⟨domain.drop 4⟩ else ⟨domain⟩

/-- The deduplication loop of `discover_candidates` (research.py lines
103-110): an insertion-ordered map from normalized domain to the first
candidate seen with that domain; candidates with a falsy domain are skipped. -/
def dedupLoop : List Candidate → List (String × Candidate) → List (String × Candidate)
  | [], acc => acc
  | c :: rest, acc =>
    let domain := extract_domain (c.website.getD "")
    if domain ≠ "" ∧ (acc.all fun kv => kv.1 ≠ domain) then
      dedupLoop rest (acc ++ [(domain, c)])
    else dedupLoop rest acc

/-- The result collection of `discover_candidates` (research.py lines
93-101): adapter outcomes in `asyncio.gather` order, failed tasks
contributing nothing. -/
def collectResults (outcomes : List (Except String (List Candidate))) : List Candidate :=
  outcomes.foldl
    (fun acc r => match r with | .ok l => acc ++ l | .error _ => acc) []

/-- `ResearchEngine.discover_candidates` (research.py lines 69-110), given
the adapter outcomes: collect the non-failed results and deduplicate by
normalized domain, first seen wins. -/
def discover_candidates (outcomes : List (Except String (List Candidate))) :
    List Candidate :=
  (dedupLoop (collectResults outcomes) []).map Prod.snd

/-- Python `str.title()` (ASCII approximation via alphabetic characters). -/
def titleAux : List Char → Bool → List Char
  | [], _ => []
  | c :: cs, startWord =>
    (if c.isAlpha then (if startWord then c.toUpper else c.toLower) else c) ::
      titleAux cs (!c.isAlpha)

/-- Python `str.title()`. -/
def pyTitle (s : String) : String := ⟨titleAux s.data true⟩

/-- `ResearchEngine._search_state_license_board` (research.py lines 189-205):
five simulated records carrying license fields but no `website` key; `nums`
models the `random.randint` draws. -/
def search_state_license_board (trade : String) (nums : Nat → Nat) : List Candidate :=
  (List.range 5).map fun i =>
    { name := some ("Licensed " ++ pyTitle trade ++ " Contractor " ++ toString (i + 1)),
      website := none,
      source := some "license_board",
      lic_number := some ("TX" ++ toString (nums i)),
      lic_active := some true }

/-! The job lifecycle (`process_research_job`, main.py lines 67-90). -/

/-- Job status values used by `main.py`. -/
inductive JobStatus where
  | queued
  | processing
  | succeeded
  | failed
deriving Repr, DecidableEq

/-- One `jobs_store` record (main.py lines 47-52 and 81-90). -/
structure JobRecord where
  status : JobStatus
  results : Option (List Profile) := none
  error : Option String := none
  completed_at : Option String := none
deriving Repr, DecidableEq

/-- The record created by `create_research_job` (main.py lines 47-52). -/
def newJobRecord : JobRecord :=
  { status := .queued, results := none, error := none, completed_at := none }

/-- `process_research_job` (main.py lines 67-90): set the status to
PROCESSING, then either store the pipeline's results with status SUCCEEDED,
or, when the pipeline raises, store status FAILED and `str(e)` as the error.
The pipeline outcome is supplied as an `Except` carrying `str(e)` on
failure. -/
def process_research_job (job : JobRecord) (outcome : Except String (List Profile))
    (now : String) : JobRecord :=
  let job := {job with status := .processing}
  match outcome with
  | .ok results =>
    let j1 := {job with status := JobStatus.succeeded, results := some results}
    {j1 with completed_at := some now}
  | .error e => {job with status := .failed, error := some e}

/-- Claim-side restatement of the bond-value computation: the matched number
(commas stripped, parsed exactly) is multiplied by 1,000,000 exactly when the
letter `m` occurs anywhere in the lowercased page text (in particular
whenever the word "million" occurs), then truncated to an integer.  To be
compared with the source-side `scanBond`. -/
def bondClaimValue (text bond_str : List Char) : Int :=
  let s := stripCommas bond_str
  let mult : Nat := if (lowerL text).contains 'm' then 1000000 else 1
  Int.ofNat (decMant s * mult / 10 ^ decScale s)

/-!
Theorems.
-/

lemma pyInt_of_nonneg {q : ℚ} (h : 0 ≤ q) : pyInt q = ⌊q⌋ := by
  unfold pyInt
  rw [if_neg (not_lt.mpr h)]

lemma pyInt_mono {a b : ℚ} (h : a ≤ b) : pyInt a ≤ pyInt b := by
  unfold pyInt
  by_cases ha : a < 0 <;> by_cases hb : b < 0 <;> simp only [ha, hb, if_pos, if_neg, if_true, if_false]
  · exact Int.ceil_le_ceil h
  · have h1 : ⌈a⌉ ≤ 0 := Int.ceil_le.mpr (by exact_mod_cast ha.le)
    exact le_trans h1 (Int.floor_nonneg.mpr (not_lt.mp hb))
  · exact absurd (lt_of_le_of_lt h hb) ha
  · exact Int.floor_le_floor h

lemma pyInt_le_25 {q : ℚ} (h : q < 25) : pyInt q ≤ 25 := by
  have h2 : pyInt q ≤ pyInt 25 := pyInt_mono h.le
  have h3 : pyInt 25 = 25 := by
    rw [pyInt_of_nonneg (by norm_num)]
    exact_mod_cast Int.floor_intCast 25
  omega

lemma pyInt_neg (q : ℚ) : pyInt (-q) = -pyInt q := by
  unfold pyInt
  rcases lt_trichotomy q 0 with h | h | h
  · rw [if_neg (by linarith), if_pos h, Int.floor_neg]
  · subst h
    norm_num
  · rw [if_pos (by linarith), if_neg (not_lt.mpr h.le), Int.ceil_neg]

lemma floor_intCast_div (a m : Int) (hm : 0 < m) :
    ⌊(a : ℚ) / (m : ℚ)⌋ = a / m := by
  have h1 : ((m.toNat : ℕ) : ℚ) = (m : ℚ) := by
    exact_mod_cast congrArg (fun z : Int => (z : ℚ)) (Int.toNat_of_nonneg hm.le)
  rw [← h1, Rat.floor_intCast_div_natCast a m.toNat, Int.toNat_of_nonneg hm.le]

/-- Integer T-division is `int(...)` truncation of the exact quotient. -/
lemma tdiv_eq_pyInt (a m : Int) (hm : 0 < m) :
    a.tdiv m = pyInt ((a : ℚ) / (m : ℚ)) := by
  have hmq : (0 : ℚ) < (m : ℚ) := by exact_mod_cast hm
  by_cases ha : 0 ≤ a
  · rw [Int.tdiv_eq_ediv ha hm.le]
    have hq : (0 : ℚ) ≤ (a : ℚ) / (m : ℚ) := by positivity
    rw [pyInt_of_nonneg hq, floor_intCast_div a m hm]
  · push_neg at ha
    have h1 : a.tdiv m = -((-a).tdiv m) := by
      rw [← Int.neg_tdiv, neg_neg]
    have hcast : ((a : ℚ)) / (m : ℚ) = -(((-a : Int) : ℚ) / (m : ℚ)) := by
      push_cast
      ring
    rw [h1, Int.tdiv_eq_ediv (by omega) hm.le, hcast, pyInt_neg]
    have hq : (0 : ℚ) ≤ ((-a : Int) : ℚ) / (m : ℚ) := by
      apply div_nonneg ?_ hmq.le
      exact_mod_cast (by omega : (0 : Int) ≤ -a)
    rw [pyInt_of_nonneg hq, floor_intCast_div (-a) m hm]

lemma bondFactor_some_of_nonneg {b m : Int} (hm : 0 ≤ m) (hb : 0 ≤ b) :
    ∃ v, bondFactor (some b) m = some v ∧ 0 ≤ v ∧ v ≤ 25 := by
  simp only [bondFactor]
  by_cases hle : m ≤ b
  · exact ⟨25, by rw [if_pos hle], by norm_num, le_refl _⟩
  · have hbm : b < m := lt_of_not_le hle
    have hm0 : m ≠ 0 := by omega
    have hmpos : 0 < m := by omega
    rw [if_neg hle, if_neg hm0]
    refine ⟨_, rfl, ?_, ?_⟩
    · exact Int.tdiv_nonneg (by omega) hm
    · rw [tdiv_eq_pyInt _ _ hmpos]
      apply pyInt_le_25
      have hmq : (0 : ℚ) < (m : ℚ) := by exact_mod_cast hmpos
      rw [div_lt_iff hmq]
      push_cast
      have hb2 : (b : ℚ) < (m : ℚ) := by exact_mod_cast hbm
      nlinarith

lemma bondFactor_none : bondFactor none m = some 0 := rfl

lemma scoreProfile_some_le (p : Profile) (tc ts : String) (m : Int)
    (hm : 0 ≤ m) (hb : 0 ≤ p.bond_amount.getD 0) :
    ∃ s, scoreProfile p tc ts m = some s ∧ s ≤ 100 := by
  have hgeo : geoFactor p tc ts ≤ 25 := by
    unfold geoFactor
    split <;> try split
    all_goals norm_num
  have hlic : licFactor p ≤ 25 := by
    unfold licFactor
    rcases p.lic_active with _ | b
    · norm_num
    · cases b <;> norm_num
  have hproj : projFactor p ≤ 25 := by
    unfold projFactor
    split
    · norm_num
    · omega
  obtain ⟨v, hv, hv0, hv25⟩ : ∃ v, bondFactor p.bond_amount m = some v ∧ 0 ≤ v ∧ v ≤ 25 := by
    rcases hpb : p.bond_amount with _ | b
    · exact ⟨0, rfl, le_refl _, by norm_num⟩
    · have : 0 ≤ b := by
        rw [hpb] at hb
        simpa using hb
      exact bondFactor_some_of_nonneg hm this
  refine ⟨geoFactor p tc ts + licFactor p + v + projFactor p, ?_, by omega⟩
  unfold scoreProfile
  rw [hv]
  rfl

lemma annotateScores_some (tc ts : String) (m : Int) (ps : List Profile)
    (hm : 0 ≤ m) (hb : ∀ p ∈ ps, 0 ≤ p.bond_amount.getD 0) :
    ∃ l, annotateScores tc ts m ps = some l ∧
      ∀ q ∈ l, q.score.getD 0 ≤ 100 := by
  induction ps with
  | nil => exact ⟨[], rfl, by simp⟩
  | cons p rest ih =>
    obtain ⟨tail, htail, htail100⟩ := ih fun q hq => hb q (List.mem_cons_of_mem _ hq)
    have hbp : 0 ≤ p.bond_amount.getD 0 := hb p (List.mem_cons_self _ _)
    by_cases helig : pyTruthyO p.name && pyTruthyO p.website
    · obtain ⟨s, hs, hs100⟩ := scoreProfile_some_le p tc ts m hm hbp
      refine ⟨{p with score := some s} :: tail, ?_, ?_⟩
      · rw [annotateScores, if_pos helig, hs, htail]
      · intro q hq
        rcases List.mem_cons.mp hq with hq | hq
        · subst hq
          simpa using hs100
        · exact htail100 q hq
    · refine ⟨tail, ?_, htail100⟩
      rw [annotateScores, if_neg helig]
      exact htail

/-- C6: for every minimum `m > 0`, the bonding-capacity factor of
`score_and_rank` is exactly 25 when `b ≥ m`, equals `⌊25·b/m⌋` when
`0 ≤ b < m`, and is monotonically non-decreasing in `b`. -/
theorem bondFactor_C6 (m : Int) (hm : 0 < m) :
    (∀ b : Int, m ≤ b → bondFactor (some b) m = some 25) ∧
    (∀ b : Int, 0 ≤ b → b < m →
      bondFactor (some b) m = some ⌊25 * (b : ℚ) / (m : ℚ)⌋) ∧
    (∀ b₁ b₂ : Int, b₁ ≤ b₂ →
      (bondFactor (some b₁) m).getD 0 ≤ (bondFactor (some b₂) m).getD 0) := by
  have hmq : (0 : ℚ) < (m : ℚ) := by exact_mod_cast hm
  refine ⟨?_, ?_, ?_⟩
  · intro b hble
    simp only [bondFactor]
    rw [if_pos hble]
  · intro b hb0 hbm
    simp only [bondFactor]
    rw [if_neg (not_le.mpr hbm), if_neg (by omega : m ≠ 0),
      tdiv_eq_pyInt _ _ hm]
    have hq : (0 : ℚ) ≤ ((25 * b : Int) : ℚ) / (m : ℚ) := by
      apply div_nonneg ?_ hmq.le
      exact_mod_cast (by omega : (0 : Int) ≤ 25 * b)
    rw [pyInt_of_nonneg hq]
    norm_num
  · intro b₁ b₂ hb
    by_cases h2 : m ≤ b₂
    · rw [show bondFactor (some b₂) m = some 25 by simp only [bondFactor]; rw [if_pos h2]]
      by_cases h1 : m ≤ b₁
      · rw [show bondFactor (some b₁) m = some 25 by simp only [bondFactor]; rw [if_pos h1]]
      · have hb1m : b₁ < m := lt_of_not_le h1
        simp only [bondFactor]
        rw [if_neg h1, if_neg (by omega : m ≠ 0), tdiv_eq_pyInt _ _ hm]
        simp only [Option.getD_some]
        apply pyInt_le_25
        rw [div_lt_iff hmq]
        have hb2 : (b₁ : ℚ) < (m : ℚ) := by exact_mod_cast hb1m
        push_cast
        nlinarith
    · have h1 : ¬ m ≤ b₁ := by omega
      simp only [bondFactor]
      rw [if_neg h1, if_neg h2, if_neg (by omega : m ≠ 0), if_neg (by omega : m ≠ 0),
        tdiv_eq_pyInt _ _ hm, tdiv_eq_pyInt _ _ hm]
      simp only [Option.getD_some]
      apply pyInt_mono
      apply div_le_div_of_nonneg_right ?_ hmq.le
      exact_mod_cast (by omega : (25 : Int) * b₁ ≤ 25 * b₂)

/-- Witness for C6 at `m = 2`, `b = 5`. -/
theorem bondFactor_C6_witness : bondFactor (some 5) 2 = some 25 :=
  (bondFactor_C6 2 (by norm_num)).1 5 (by norm_num)

/-- C10: when `min_bond ≥ 0` and every present bond amount is non-negative,
`score_and_rank` never raises `ZeroDivisionError` (it returns a result). -/
theorem score_and_rank_C10 (ps : List Profile) (tc ts : String) (m : Int)
    (hm : 0 ≤ m) (hb : ∀ p ∈ ps, 0 ≤ p.bond_amount.getD 0) :
    (score_and_rank ps tc ts m).isSome := by
  obtain ⟨l, hl, -⟩ := annotateScores_some tc ts m ps hm hb
  unfold score_and_rank
  rw [hl]
  rfl

/-- Witness for C10. -/
theorem score_and_rank_C10_witness :
    (score_and_rank
      [{ name := some "a", website := some "w", bond_amount := some 0 }]
      "c" "s" 0).isSome :=
  score_and_rank_C10 _ "c" "s" 0 (by norm_num) (by decide)

/-- C1 (amended): when `min_bond ≥ 0` and every present bond amount is
non-negative, `score_and_rank` succeeds and its output is exactly the scored
(name- and website-carrying) profiles with score at least 40, every
contained score lies in `[0, 100]`, and the output is sorted by score in
descending order.  (Without the two preconditions a contained score can
exceed 100, see the counterexample.) -/
theorem score_and_rank_C1 (ps : List Profile) (tc ts : String) (m : Int)
    (hm : 0 ≤ m) (hb : ∀ p ∈ ps, 0 ≤ p.bond_amount.getD 0) :
    ∃ scored out, annotateScores tc ts m ps = some scored ∧
      score_and_rank ps tc ts m = some out ∧
      out.Perm (scored.filter fun q => decide (40 ≤ q.score.getD 0)) ∧
      out.Pairwise (fun a b => b.score.getD 0 ≤ a.score.getD 0) ∧
      ∀ q ∈ out, 40 ≤ q.score.getD 0 ∧ 0 ≤ q.score.getD 0 ∧ q.score.getD 0 ≤ 100 := by
  obtain ⟨scored, hs, hs100⟩ := annotateScores_some tc ts m ps hm hb
  haveI : IsTotal Profile (fun a b : Profile => b.score.getD 0 ≤ a.score.getD 0) :=
    ⟨fun a b => le_total _ _⟩
  haveI : IsTrans Profile (fun a b : Profile => b.score.getD 0 ≤ a.score.getD 0) :=
    ⟨fun _ _ _ hab hbc => le_trans hbc hab⟩
  refine ⟨scored,
    List.insertionSort (fun a b => b.score.getD 0 ≤ a.score.getD 0)
      (scored.filter fun q => decide (40 ≤ q.score.getD 0)),
    hs, ?_, ?_, ?_, ?_⟩
  · unfold score_and_rank
    rw [hs]
    rfl
  · exact List.perm_insertionSort _ _
  · exact List.sorted_insertionSort _ _
  · intro q hq
    have hq2 : q ∈ scored.filter fun q => decide (40 ≤ q.score.getD 0) :=
      (List.perm_insertionSort _ _).mem_iff.mp hq
    obtain ⟨hqs, hq40⟩ := List.mem_filter.mp hq2
    have h40 : 40 ≤ q.score.getD 0 := of_decide_eq_true hq40
    exact ⟨h40, by omega, hs100 q hqs⟩

/-- Witness for C1: the worked example of the specification (bond
2,500,000 against a 5,000,000 minimum, active license, exact city/state
match, 3 projects, score 77). -/
theorem score_and_rank_C1_witness :
    ∃ scored out,
      annotateScores "Austin" "TX" 5000000
        [{ name := some "a", website := some "w", city := some "Austin",
           state := some "TX", bond_amount := some 2500000,
           lic_active := some true, tx_projects_past_5yrs := some 3 }] = some scored ∧
      score_and_rank
        [{ name := some "a", website := some "w", city := some "Austin",
           state := some "TX", bond_amount := some 2500000,
           lic_active := some true, tx_projects_past_5yrs := some 3 }]
        "Austin" "TX" 5000000 = some out ∧
      out.Perm (scored.filter fun q => decide (40 ≤ q.score.getD 0)) ∧
      out.Pairwise (fun a b => b.score.getD 0 ≤ a.score.getD 0) ∧
      ∀ q ∈ out, 40 ≤ q.score.getD 0 ∧ 0 ≤ q.score.getD 0 ∧ q.score.getD 0 ≤ 100 :=
  score_and_rank_C1 _ "Austin" "TX" 5000000 (by norm_num) (by decide)

/-- Counterexample to C1 as stated (quantified over every profile list and
`min_bond`): with `min_bond = -2` and a profile whose bond amount is `-4`,
`score_and_rank` returns the profile with score 125, outside `[0, 100]`. -/
theorem score_and_rank_C1_cex :
    ((score_and_rank
      [{ name := some "a", website := some "w", city := some "c",
         state := some "s", bond_amount := some (-4), lic_active := some true,
         tx_projects_past_5yrs := some 5 }]
      "c" "s" (-2)).getD []).map (fun q => q.score) = [some 125] ∧
    ¬ ((125 : Int) ≤ 100) := by
  constructor
  · decide
  · decide

/-- C7 (amended): a job whose pipeline raises an unhandled error ends in
status FAILED with the raised error's message captured and no results
populated; the stored message is non-empty whenever the raised error's
message is non-empty (but `str(e)` can be empty, see the counterexample). -/
theorem process_job_C7 (job : JobRecord) (e now : String)
    (hres : job.results = none) :
    (process_research_job job (Except.error e) now).status = JobStatus.failed ∧
    (process_research_job job (Except.error e) now).error = some e ∧
    (process_research_job job (Except.error e) now).results = none ∧
    (e ≠ "" → (process_research_job job (Except.error e) now).error.getD "" ≠ "") := by
  refine ⟨rfl, rfl, hres, ?_⟩
  intro he
  simpa using he

/-- Witness for C7: a freshly created job record failing with message
"boom". -/
theorem process_job_C7_witness :
    (process_research_job newJobRecord (Except.error "boom") "t").status =
      JobStatus.failed ∧
    (process_research_job newJobRecord (Except.error "boom") "t").error =
      some "boom" ∧
    (process_research_job newJobRecord (Except.error "boom") "t").results = none ∧
    ("boom" ≠ "" →
      (process_research_job newJobRecord (Except.error "boom") "t").error.getD "" ≠ "") :=
  process_job_C7 newJobRecord "boom" "t" rfl

/-- Counterexample to C7 as stated: a pipeline error whose message is empty
(as `str(e)` is for e.g. a bare `Exception()`) yields a FAILED job whose
stored error message is empty, refuting the claimed non-emptiness. -/
theorem process_job_C7_cex :
    (process_research_job newJobRecord (Except.error "") "t").status =
      JobStatus.failed ∧
    (process_research_job newJobRecord (Except.error "") "t").error = some "" ∧
    ¬ ((process_research_job newJobRecord (Except.error "") "t").error.getD "" ≠ "") := by
  refine ⟨rfl, rfl, ?_⟩
  exact fun h => h rfl

lemma pyTruthyO_isSome {o : Option String} (h : pyTruthyO o = true) : o.isSome := by
  cases o with
  | none => simp [pyTruthyO] at h
  | some s => rfl

lemma verifyLoop_mem (nums : Nat → Nat) (coins : Nat → Bool) :
    ∀ (i : Nat) (ps : List Profile) (p : Profile), p ∈ verifyLoop nums coins i ps →
      p.lic_number.isSome ∧ p.lic_active.isSome := by
  intro i ps
  induction ps generalizing i with
  | nil =>
    intro p hp
    simp [verifyLoop] at hp
  | cons q rest ih =>
    intro p hp
    rw [verifyLoop] at hp
    rcases List.mem_cons.mp hp with hp | hp
    · subst hp
      constructor
      · by_cases hq : pyTruthyO q.lic_number
        · simp only [hq]
          simpa using pyTruthyO_isSome hq
        · simp [hq]
      · simp
    · exact ih (i + 1) p hp

/-- C9: for a job whose jurisdiction upper-cases to "TX", every profile
returned by `verify_licenses` carries a license number and an active flag;
consequently the `+10` unknown-license-status branch of the scorer is
unreachable for those profiles. -/
theorem verify_licenses_C9 (profiles : List Profile) (state : String)
    (nums : Nat → Nat) (coins : Nat → Bool) (hstate : pyUpper state = "TX") :
    ∀ p ∈ verify_licenses profiles state nums coins,
      p.lic_number.isSome ∧ p.lic_active.isSome ∧ licFactor p ≠ 10 := by
  intro p hp
  rw [verify_licenses, if_neg (by simp [hstate])] at hp
  obtain ⟨hnum, hact⟩ := verifyLoop_mem nums coins 0 profiles p hp
  refine ⟨hnum, hact, ?_⟩
  rcases hb : p.lic_active with _ | b
  · rw [hb] at hact
    simp at hact
  · unfold licFactor
    rw [hb]
    cases b <;> simp

/-- Witness for C9: a single profile verified under jurisdiction "tx". -/
theorem verify_licenses_C9_witness :
    ({ name := some "a", lic_number := some "TX12345678", lic_active := some true } :
      Profile).lic_number.isSome ∧
    ({ name := some "a", lic_number := some "TX12345678", lic_active := some true } :
      Profile).lic_active.isSome ∧
    licFactor { name := some "a", lic_number := some "TX12345678", lic_active := some true }
      ≠ 10 :=
  verify_licenses_C9 [{ name := some "a" }] "tx"
    (fun _ => 12345678) (fun _ => true) (by decide) _ (by decide)

lemma dedupLoop_inv (cs : List Candidate) :
    ∀ acc : List (String × Candidate),
      (∀ kv ∈ acc, kv.1 = extract_domain (kv.2.website.getD "") ∧ kv.1 ≠ "") →
      ∀ kv ∈ dedupLoop cs acc,
        kv.1 = extract_domain (kv.2.website.getD "") ∧ kv.1 ≠ "" := by
  induction cs with
  | nil =>
    intro acc hacc kv hkv
    rw [dedupLoop] at hkv
    exact hacc kv hkv
  | cons c rest ih =>
    intro acc hacc kv hkv
    rw [dedupLoop] at hkv
    split at hkv
    · next hcond =>
      refine ih _ ?_ kv hkv
      intro kv2 hkv2
      rcases List.mem_append.mp hkv2 with h | h
      · exact hacc kv2 h
      · rcases List.mem_singleton.mp h with rfl
        exact ⟨rfl, hcond.1⟩
    · exact ih _ hacc kv hkv

/-- C8: every candidate surviving discovery deduplication has a website with
a non-empty normalized domain; every record of the state-license-registry
adapter carries no website and is therefore always dropped (silently) by
deduplication. -/
theorem discover_C8 :
    (∀ (outcomes : List (Except String (List Candidate))) (c : Candidate),
      c ∈ discover_candidates outcomes → extract_domain (c.website.getD "") ≠ "") ∧
    (∀ (trade : String) (nums : Nat → Nat) (c : Candidate),
      c ∈ search_state_license_board trade nums → c.website = none) ∧
    (∀ (trade : String) (nums : Nat → Nat)
      (outcomes : List (Except String (List Candidate))) (c : Candidate),
      c ∈ search_state_license_board trade nums →
        c ∉ discover_candidates outcomes) := by
  have h1 : ∀ (outcomes : List (Except String (List Candidate))) (c : Candidate),
      c ∈ discover_candidates outcomes → extract_domain (c.website.getD "") ≠ "" := by
    intro outcomes c hc
    unfold discover_candidates at hc
    obtain ⟨kv, hkv, rfl⟩ := List.mem_map.mp hc
    obtain ⟨hdom, hne⟩ := dedupLoop_inv _ [] (by simp) kv hkv
    rw [← hdom]
    exact hne
  have h2 : ∀ (trade : String) (nums : Nat → Nat) (c : Candidate),
      c ∈ search_state_license_board trade nums → c.website = none := by
    intro trade nums c hc
    unfold search_state_license_board at hc
    obtain ⟨i, -, rfl⟩ := List.mem_map.mp hc
    rfl
  refine ⟨h1, h2, ?_⟩
  intro trade nums outcomes c hc hmem
  have hw : c.website = none := h2 trade nums c hc
  have hne := h1 outcomes c hmem
  rw [hw] at hne
  exact hne rfl

/-- Witness for C8: a concrete adapter-output set in which a candidate with
website `https://www.x.com/` survives deduplication, and a concrete
license-board record that carries no website and is excluded. -/
theorem discover_C8_witness :
    extract_domain
      (({ name := some "A", website := some "https://www.x.com/" } :
        Candidate).website.getD "") ≠ "" ∧
    ({ name := some "Licensed Hvac Contractor 1", website := none,
       source := some "license_board", lic_number := some "TX11111111",
       lic_active := some true } : Candidate).website = none ∧
    ({ name := some "Licensed Hvac Contractor 1", website := none,
       source := some "license_board", lic_number := some "TX11111111",
       lic_active := some true } : Candidate) ∉
      discover_candidates
        [Except.ok [{ name := some "A", website := some "https://www.x.com/" }]] :=
  ⟨discover_C8.1 [Except.ok [{ name := some "A", website := some "https://www.x.com/" }]]
      _ (by decide),
   discover_C8.2.1 "hvac" (fun _ => 11111111) _ (by decide),
   discover_C8.2.2 "hvac" (fun _ => 11111111)
      [Except.ok [{ name := some "A", website := some "https://www.x.com/" }]]
      _ (by decide)⟩

lemma extract_single_profile_populated (c : Candidate) (pages : List (String × String))
    (llm : Option LLMOut) (now : String) (p : Profile)
    (h : extract_single_profile c pages llm now = some p) :
    4 ≤ populatedFieldCount p := by
  unfold extract_single_profile at h
  split at h
  · exact absurd h (by simp)
  · split at h
    · exact absurd h (by simp)
    · dsimp only at h
      split at h
      all_goals
        split at h
        · next hcount =>
          cases h
          exact hcount
        · exact absurd h (by simp)

lemma extractLoop_mem (pages : Nat → List (String × String)) (llm : Nat → Option LLMOut)
    (now : String) :
    ∀ (i : Nat) (cs : List Candidate) (p : Profile),
      p ∈ extractLoop pages llm now i cs → 4 ≤ populatedFieldCount p := by
  intro i cs
  induction cs generalizing i with
  | nil =>
    intro p hp
    simp [extractLoop] at hp
  | cons c rest ih =>
    intro p hp
    rw [extractLoop] at hp
    split at hp
    · next q hq =>
      rcases List.mem_cons.mp hp with hp | hp
      · subst hp
        exact extract_single_profile_populated c (pages i) (llm i) now p hq
      · exact ih (i + 1) p hp
    · exact ih (i + 1) p hp

/-- C2: a profile appears in the output of profile extraction only if at
least 4 of its counted fields (the profile keys other than `website`,
`last_checked`, `evidence_url` and `evidence_text`) are non-null; a profile
with fewer than 4 such fields populated never appears. -/
theorem extract_profiles_C2 (candidates : List Candidate)
    (pages : Nat → List (String × String)) (llm : Nat → Option LLMOut)
    (now : String) :
    ∀ p ∈ extract_profiles candidates pages llm now, 4 ≤ populatedFieldCount p := by
  intro p hp
  exact extractLoop_mem pages llm now 0 candidates p hp

/-- Witness for C2: a candidate carrying discovery-phase license fields and
one fetched page with no extractable patterns yields a retained profile with
exactly 4 counted fields populated (name, lic_number, lic_active,
evidence_page). -/
theorem extract_profiles_C2_witness :
    4 ≤ populatedFieldCount
      { name := some "A", website := some "https://www.x.com",
        email := none, phone_number := none, city := none, state := none,
        bond_amount := none, lic_number := some "TX1", lic_active := some true,
        tx_projects_past_5yrs := none, score := none,
        evidence_url := some "https://www.x.com", evidence_text := some "",
        evidence_page := some "", last_checked := some "t" } :=
  extract_profiles_C2
    [{ name := some "A", website := some "https://www.x.com",
       source := some "google_search", lic_number := some "TX1",
       lic_active := some true }]
    (fun _ => [("", "hello")]) (fun _ => none) "t" _ (by decide)

/-- C3 (amended): the project-history count is a non-negative integer equal
to the minimum of the location-token tally and the recent-year tally; it is
boosted by half the keyword-mention count and capped at 10 only when that
minimum and the keyword mentions are both positive.  In particular the count
is at most 10 whenever the boost applies, but without keyword mentions it is
the uncapped tally minimum (which can exceed 10, see the counterexample). -/
theorem project_count_C3 (text : String) (currentYear : Nat) (keywords : List String) :
    project_count_from_text text currentYear keywords =
      (if text = "" then 0
       else if 0 < kwMentions text keywords ∧
          0 < min (txMentions text) (yearMentions text currentYear) then
         min (min (txMentions text) (yearMentions text currentYear) +
           kwMentions text keywords / 2) 10
       else min (txMentions text) (yearMentions text currentYear)) ∧
    (0 < kwMentions text keywords →
      0 < min (txMentions text) (yearMentions text currentYear) →
      project_count_from_text text currentYear keywords ≤ 10) := by
  constructor
  · rfl
  · intro hkw hmin
    unfold project_count_from_text
    split
    · norm_num
    · rw [if_pos ⟨hkw, hmin⟩]
      exact min_le_right _ _

/-- Witness for C3: one location token, one in-window year and one keyword
mention give the boosted, capped count `min (1 + 0, 10) = 1 ≤ 10`. -/
theorem project_count_C3_witness :
    project_count_from_text "TX 2026 pipe" 2030 ["pipe"] ≤ 10 :=
  (project_count_C3 "TX 2026 pipe" 2030 ["pipe"]).2 (by decide) (by decide)

/-- Counterexample to C3 as stated ("ceiling 10"): with no keywords, a
project page mentioning a location token and an in-window year 11 times each
is assigned a count of 11, exceeding the claimed ceiling of 10. -/
theorem parse_project_history_C3_cex :
    (parse_project_history [{ website := some "https://x.com" }] "TX" []
      (fun _ => "TX 2026 TX 2026 TX 2026 TX 2026 TX 2026 TX 2026 TX 2026 TX 2026 TX 2026 TX 2026 TX 2026")
      2030).map (fun p => p.tx_projects_past_5yrs) = [some 11] ∧
    ¬ ((11 : Nat) ≤ 10) := by
  constructor
  · decide
  · decide

lemma containsSub_singleton (l : List Char) (c : Char) :
    containsSub l [c] = l.contains c := by
  induction l with
  | nil => rfl
  | cons x xs ih =>
    rw [containsSub, List.contains_cons]
    simp only [List.isPrefixOf, List.isPrefixOf_nil_left, Bool.and_true, ih]

lemma contains_head_of_containsSub {l ns : List Char} {c : Char}
    (h : containsSub l (c :: ns) = true) : l.contains c = true := by
  induction l with
  | nil => simp [containsSub] at h
  | cons x xs ih =>
    rw [containsSub, Bool.or_eq_true] at h
    rw [List.contains_cons, Bool.or_eq_true]
    rcases h with h | h
    · left
      simp only [List.isPrefixOf, Bool.and_eq_true] at h
      simp [h.1]
    · right
      exact ih h

lemma million_cond_eq_contains (l : List Char) :
    (containsSub l ("million".data) || containsSub l ("m".data)) = l.contains 'm' := by
  have hm : ("m".data) = ['m'] := rfl
  rw [hm, containsSub_singleton]
  cases hml : containsSub l ("million".data)
  · rw [Bool.false_or]
  · rw [Bool.true_or]
    exact (contains_head_of_containsSub hml).symm

/-- The bond field after the bond block of one page: the last matching page
wins, and the value is exactly `bondClaimValue`. -/
lemma scanBond_bond (st : ScanState) (path : String) (text : List Char) :
    (scanBond st path text).data.bond_amount =
      (match bondFirstMatch text with
       | some bs => some (bondClaimValue text bs)
       | none => st.data.bond_amount) := by
  unfold scanBond
  cases hb : bondFirstMatch text with
  | none => rfl
  | some bs =>
    dsimp only
    rw [show bondClaimValue text bs =
        Int.ofNat (decMant (stripCommas bs) *
          (if (lowerL text).contains 'm' then 1000000 else 1) /
          10 ^ decScale (stripCommas bs)) from rfl]
    rw [← million_cond_eq_contains (lowerL text)]
    cases hf : findSubAux (lowerL bs) (lowerL text) 0
    · rfl
    · dsimp only
      split <;> rfl

lemma scanBond_keeps (st : ScanState) (path : String) (text : List Char) :
    (scanBond st path text).data.email = st.data.email ∧
    (scanBond st path text).data.phone_number = st.data.phone_number ∧
    (scanBond st path text).data.city = st.data.city ∧
    (scanBond st path text).data.state = st.data.state := by
  unfold scanBond
  split
  · exact ⟨rfl, rfl, rfl, rfl⟩
  · dsimp only
    split
    · exact ⟨rfl, rfl, rfl, rfl⟩
    · split <;> exact ⟨rfl, rfl, rfl, rfl⟩

lemma scanEmail_keeps (d : ExtractedData) (text : List Char) :
    (scanEmail d text).phone_number = d.phone_number ∧
    (scanEmail d text).city = d.city ∧
    (scanEmail d text).state = d.state ∧
    (scanEmail d text).bond_amount = d.bond_amount := by
  unfold scanEmail
  split
  · split <;> exact ⟨rfl, rfl, rfl, rfl⟩
  · exact ⟨rfl, rfl, rfl, rfl⟩

lemma scanPhone_keeps (d : ExtractedData) (text : List Char) :
    (scanPhone d text).email = d.email ∧
    (scanPhone d text).city = d.city ∧
    (scanPhone d text).state = d.state ∧
    (scanPhone d text).bond_amount = d.bond_amount := by
  unfold scanPhone
  split
  · split <;> exact ⟨rfl, rfl, rfl, rfl⟩
  · exact ⟨rfl, rfl, rfl, rfl⟩

lemma addrStep_keeps (text : List Char) (d : ExtractedData) (rx : Rx) :
    (addrStep text d rx).email = d.email ∧
    (addrStep text d rx).phone_number = d.phone_number ∧
    (addrStep text d rx).bond_amount = d.bond_amount := by
  unfold addrStep
  split
  · split <;> exact ⟨rfl, rfl, rfl⟩
  · exact ⟨rfl, rfl, rfl⟩

lemma scanAddress_keeps (d : ExtractedData) (text : List Char) :
    (scanAddress d text).email = d.email ∧
    (scanAddress d text).phone_number = d.phone_number ∧
    (scanAddress d text).bond_amount = d.bond_amount := by
  unfold scanAddress
  simp only [List.foldl]
  obtain ⟨h1, h2, h3⟩ := addrStep_keeps text (addrStep text d addrRx1) addrRx2
  obtain ⟨g1, g2, g3⟩ := addrStep_keeps text d addrRx1
  exact ⟨h1.trans g1, h2.trans g2, h3.trans g3⟩

lemma scanEmail_of_truthy (d : ExtractedData) (text : List Char)
    (h : pyTruthyO d.email = true) : scanEmail d text = d := by
  unfold scanEmail
  rw [h]
  rfl

lemma scanPhone_of_truthy (d : ExtractedData) (text : List Char)
    (h : pyTruthyO d.phone_number = true) : scanPhone d text = d := by
  unfold scanPhone
  rw [h]
  rfl

lemma addrStep_of_truthy (text : List Char) (d : ExtractedData) (rx : Rx)
    (hc : pyTruthyO d.city = true) (hs : pyTruthyO d.state = true) :
    addrStep text d rx = d := by
  unfold addrStep
  split
  · rw [hc, hs]
    rfl
  · rfl

lemma scanAddress_of_truthy (d : ExtractedData) (text : List Char)
    (hc : pyTruthyO d.city = true) (hs : pyTruthyO d.state = true) :
    scanAddress d text = d := by
  unfold scanAddress
  simp only [List.foldl]
  rw [addrStep_of_truthy _ _ _ hc hs, addrStep_of_truthy _ _ _ hc hs]

lemma pyTruthyO_some_of_ne {s : String} (h : s ≠ "") : pyTruthyO (some s) = true := by
  unfold pyTruthyO
  rw [Bool.not_eq_true']
  rw [← Bool.not_eq_true]
  intro hemp
  exact h ((String.isEmpty_iff s).mp hemp)

/-- Email is preserved by the whole per-page step once truthily set. -/
lemma processPage_email (st : ScanState) (page : String × String)
    (h : pyTruthyO st.data.email = true) :
    (processPage st page).data.email = st.data.email := by
  unfold processPage
  dsimp only
  rw [scanEmail_of_truthy _ _ h]
  have h1 := (scanPhone_keeps st.data page.2.data).1
  have h2 := (scanAddress_keeps (scanPhone st.data page.2.data) page.2.data).1
  have h3 := (scanBond_keeps
    {st with data := scanAddress (scanPhone st.data page.2.data) page.2.data}
    page.1 page.2.data).1
  rw [h3]
  exact h2.trans h1

/-- Phone is preserved by the whole per-page step once truthily set. -/
lemma processPage_phone (st : ScanState) (page : String × String)
    (h : pyTruthyO st.data.phone_number = true) :
    (processPage st page).data.phone_number = st.data.phone_number := by
  unfold processPage
  dsimp only
  have h0 := (scanEmail_keeps st.data page.2.data).1
  have hth : pyTruthyO (scanEmail st.data page.2.data).phone_number = true := by
    rw [h0]
    exact h
  rw [scanPhone_of_truthy _ _ hth]
  have h2 := (scanAddress_keeps (scanEmail st.data page.2.data) page.2.data).2.1
  have h3 := (scanBond_keeps
    {st with data := scanAddress (scanEmail st.data page.2.data) page.2.data}
    page.1 page.2.data).2.1
  rw [h3, h2, h0]

/-- The city/state pair is preserved by the whole per-page step once both
components are truthily set. -/
lemma processPage_citystate (st : ScanState) (page : String × String)
    (hc : pyTruthyO st.data.city = true) (hs : pyTruthyO st.data.state = true) :
    (processPage st page).data.city = st.data.city ∧
    (processPage st page).data.state = st.data.state := by
  unfold processPage
  dsimp only
  have he2 := (scanEmail_keeps st.data page.2.data).2.1
  have he3 := (scanEmail_keeps st.data page.2.data).2.2.1
  have hp2 := (scanPhone_keeps (scanEmail st.data page.2.data) page.2.data).2.1
  have hp3 := (scanPhone_keeps (scanEmail st.data page.2.data) page.2.data).2.2.1
  have hd := scanAddress_of_truthy
    (scanPhone (scanEmail st.data page.2.data) page.2.data) page.2.data
    (by rw [hp2, he2]; exact hc) (by rw [hp3, he3]; exact hs)
  rw [hd]
  have h3 := scanBond_keeps
    {st with data := scanPhone (scanEmail st.data page.2.data) page.2.data}
    page.1 page.2.data
  refine ⟨?_, ?_⟩
  · rw [h3.2.2.1, hp2, he2]
  · rw [h3.2.2.2, hp3, he3]

/-- Bond amount after the whole per-page step: a matching page always
overwrites it. -/
lemma processPage_bond (st : ScanState) (page : String × String) :
    (processPage st page).data.bond_amount =
      (match bondFirstMatch page.2.data with
       | some bs => some (bondClaimValue page.2.data bs)
       | none => st.data.bond_amount) := by
  unfold processPage
  dsimp only
  rw [scanBond_bond]
  cases hb : bondFirstMatch page.2.data
  · dsimp only
    have h1 := (scanEmail_keeps st.data page.2.data).2.2.2
    have h2 := (scanPhone_keeps (scanEmail st.data page.2.data) page.2.data).2.2.2
    have h3 := (scanAddress_keeps
      (scanPhone (scanEmail st.data page.2.data) page.2.data) page.2.data).2.2
    rw [h3, h2, h1]
  · rfl

lemma foldPages_email (pages : List (String × String)) :
    ∀ (st : ScanState) (e : String), st.data.email = some e → e ≠ "" →
      (pages.foldl processPage st).data.email = some e := by
  induction pages with
  | nil =>
    intro st e he _
    exact he
  | cons pg rest ih =>
    intro st e he hne
    rw [List.foldl_cons]
    have hstep : (processPage st pg).data.email = st.data.email :=
      processPage_email st pg (by rw [he]; exact pyTruthyO_some_of_ne hne)
    exact ih (processPage st pg) e (hstep.trans he) hne

lemma foldPages_phone (pages : List (String × String)) :
    ∀ (st : ScanState) (ph : String), st.data.phone_number = some ph → ph ≠ "" →
      (pages.foldl processPage st).data.phone_number = some ph := by
  induction pages with
  | nil =>
    intro st ph hp _
    exact hp
  | cons pg rest ih =>
    intro st ph hp hne
    rw [List.foldl_cons]
    have hstep : (processPage st pg).data.phone_number = st.data.phone_number :=
      processPage_phone st pg (by rw [hp]; exact pyTruthyO_some_of_ne hne)
    exact ih (processPage st pg) ph (hstep.trans hp) hne

lemma foldPages_citystate (pages : List (String × String)) :
    ∀ (st : ScanState) (c s : String),
      st.data.city = some c → c ≠ "" → st.data.state = some s → s ≠ "" →
      (pages.foldl processPage st).data.city = some c ∧
      (pages.foldl processPage st).data.state = some s := by
  induction pages with
  | nil =>
    intro st c s hc _ hs _
    exact ⟨hc, hs⟩
  | cons pg rest ih =>
    intro st c s hc hcne hs hsne
    rw [List.foldl_cons]
    obtain ⟨h1, h2⟩ := processPage_citystate st pg
      (by rw [hc]; exact pyTruthyO_some_of_ne hcne)
      (by rw [hs]; exact pyTruthyO_some_of_ne hsne)
    exact ih (processPage st pg) c s (h1.trans hc) hcne (h2.trans hs) hsne

/-- C4 (amended): over the per-page extraction scan, the email and phone
fields, once set to a non-empty value, and the city/state pair, once set
with both components non-empty, are never overridden by any later page
(Python truthiness is the guard the code uses); the bond amount, by
contrast, is not guarded: any page whose text matches a bond pattern
overwrites it, so the last matching page wins (see the counterexample). -/
theorem extract_pages_C4 (st : ScanState) (pages : List (String × String)) :
    (∀ e : String, st.data.email = some e → e ≠ "" →
      (pages.foldl processPage st).data.email = some e) ∧
    (∀ ph : String, st.data.phone_number = some ph → ph ≠ "" →
      (pages.foldl processPage st).data.phone_number = some ph) ∧
    (∀ c s : String, st.data.city = some c → c ≠ "" →
      st.data.state = some s → s ≠ "" →
      (pages.foldl processPage st).data.city = some c ∧
      (pages.foldl processPage st).data.state = some s) ∧
    (∀ (path text : String) (bs : List Char),
      bondFirstMatch text.data = some bs →
      (processPage st (path, text)).data.bond_amount =
        some (bondClaimValue text.data bs)) := by
  refine ⟨fun e he hne => foldPages_email pages st e he hne,
    fun ph hp hne => foldPages_phone pages st ph hp hne,
    fun c s hc hcne hs hsne => foldPages_citystate pages st c s hc hcne hs hsne,
    ?_⟩
  intro path text bs hbs
  rw [processPage_bond, hbs]

/-- Witness for C4: deterministic fields set from an earlier page survive a
later page that matches the bond patterns, while that page's match does set
the bond amount. -/
theorem extract_pages_C4_witness :
    (([("/contact", "bonded to $7")] : List (String × String)).foldl processPage
      ⟨{ email := some "x@y.zz", phone_number := some "5125551234",
         city := some "Austin", state := some "TX" }, [], ""⟩).data.email =
      some "x@y.zz" ∧
    (([("/contact", "bonded to $7")] : List (String × String)).foldl processPage
      ⟨{ email := some "x@y.zz", phone_number := some "5125551234",
         city := some "Austin", state := some "TX" }, [], ""⟩).data.phone_number =
      some "5125551234" ∧
    ((([("/contact", "bonded to $7")] : List (String × String)).foldl processPage
      ⟨{ email := some "x@y.zz", phone_number := some "5125551234",
         city := some "Austin", state := some "TX" }, [], ""⟩).data.city =
      some "Austin" ∧
     (([("/contact", "bonded to $7")] : List (String × String)).foldl processPage
      ⟨{ email := some "x@y.zz", phone_number := some "5125551234",
         city := some "Austin", state := some "TX" }, [], ""⟩).data.state =
      some "TX") ∧
    (processPage
      ⟨{ email := some "x@y.zz", phone_number := some "5125551234",
         city := some "Austin", state := some "TX" }, [], ""⟩
      ("/contact", "bonded to $7")).data.bond_amount =
      some (bondClaimValue ("bonded to $7".data) ("7".data)) := by
  have H := extract_pages_C4
    ⟨{ email := some "x@y.zz", phone_number := some "5125551234",
       city := some "Austin", state := some "TX" }, [], ""⟩
    [("/contact", "bonded to $7")]
  exact ⟨H.1 "x@y.zz" rfl (by decide),
    H.2.1 "5125551234" rfl (by decide),
    H.2.2.1 "Austin" "TX" rfl (by decide) rfl (by decide),
    H.2.2.2 "/contact" "bonded to $7" ("7".data) (by decide)⟩

/-- Counterexample to C4 as stated: the bond amount found on the first page
(`$3`) is overridden by the later page's match (`$5`) — the code's bond
block carries no already-found guard. -/
theorem extract_pages_C4_cex :
    (extract_data_from_pages
      [("", "bonded to $3"), ("/about", "bonded to $5")] none).bond_amount =
      some 5 ∧
    (extract_data_from_pages
      [("", "bonded to $3"), ("/about", "bonded to $5")] none).bond_amount ≠
      some 3 := by
  constructor
  · decide
  · decide

/-- C5 (amended): on a page whose text matches a bond pattern, the extracted
bond amount is the matched number (commas stripped, parsed exactly)
multiplied by 1,000,000 exactly when the letter `m` occurs anywhere in the
lowercased page text — not only for the word "million" or a trailing "m" —
then truncated to an integer. -/
theorem scanBond_C5 (st : ScanState) (path : String) (text bs : List Char)
    (h : bondFirstMatch text = some bs) :
    (scanBond st path text).data.bond_amount = some (bondClaimValue text bs) := by
  rw [scanBond_bond, h]

/-- Witness for C5: the specification's own example, "$5 million" with
"million" present, yields 5,000,000. -/
theorem scanBond_C5_witness :
    (scanBond ⟨{}, [], ""⟩ "" ("bonded to $5 million".data)).data.bond_amount =
      some 5000000 := by
  rw [scanBond_C5 ⟨{}, [], ""⟩ "" ("bonded to $5 million".data) ("5".data) (by decide)]
  decide

/-- Counterexample to C5 as stated: the page text "bonded to $5 for firms"
contains neither the word "million" nor a trailing "m", yet the code
multiplies by 1,000,000 because the letter `m` (in "firms") occurs in the
text; the claim predicts 5. -/
theorem scanBond_C5_cex :
    (extract_data_from_pages [("", "bonded to $5 for firms")] none).bond_amount =
      some 5000000 ∧
    (extract_data_from_pages [("", "bonded to $5 for firms")] none).bond_amount ≠
      some 5 := by
  constructor
  · decide
  · decide

end SubRes
